import Mathlib

/-!
Shallow embedding of `src/converter.py`: the lexer and recursive-descent
parser of a small configuration language, with its constant table and the
embedded bracket-expression arithmetic evaluator.  Machine integers of the
source are Python integers, i.e. unbounded, so they are modelled as `Int`;
Python strings are sequences of code points, modelled as `List Char` where
position arithmetic matters and as `String` elsewhere.  Fallible code is
modelled with `Except`.
-/

namespace Converter

/-- Token kinds, mirroring the `TokenType` enum of the source. -/
inductive TokenType where
  | NAME | NUMBER | HEX | STRING | BOOL_TRUE | BOOL_FALSE
  | LIST_START | LPAREN | RPAREN | STRUCT_START | STRUCT_END
  | ASSIGN | COMMA | DEFINE | SEMICOLON | LBRACK | RBRACK
  | CHR_START | PLUS | MINUS | MUL | DIV | EOF
  deriving DecidableEq, Repr

/-- The string payload of each `TokenType` enum member (its `.value` in the
source), used when formatting error messages. -/
def TokenType.valueStr : TokenType → String
  | .NAME => ("NAME")
  | .NUMBER => ("NUMBER")
  | .HEX => ("HEX")
  | .STRING => ("STRING")
  | .BOOL_TRUE => ("BOOL_TRUE")
  | .BOOL_FALSE => ("BOOL_FALSE")
  | .LIST_START => ("(list")
  | .LPAREN => ("(")
  | .RPAREN => (")")
  | .STRUCT_START => ("struct\x7b")
  | .STRUCT_END => ("\x7d")
  | .ASSIGN => ("=")
  | .COMMA => (",")
  | .DEFINE => (":=")
  | .SEMICOLON => (";")
  | .LBRACK => ("[")
  | .RBRACK => ("]")
  | .CHR_START => ("chr(")
  | .PLUS => ("+")
  | .MINUS => ("-")
  | .MUL => ("*")
  | .DIV => ("/")
  | .EOF => ("EOF")

/-- Tokens carry their kind, raw text and source position, as in the
`Token` dataclass of the source. -/
structure Token where
  type : TokenType
  value : String
  line : Nat
  col : Nat
  deriving DecidableEq, Repr

/-- The values the parser produces (`Any` in the source): Python ints,
strings, booleans, lists, and dicts (ordered field lists).  Bare
identifiers and text both come out as Python `str`, so both map to
`Value.str`. -/
inductive Value where
  | int (n : Int)
  | str (s : String)
  | bool (b : Bool)
  | list (xs : List Value)
  | struct (fields : List (String × Value))

/-- Python `isinstance(-, int)`: `bool` is a subclass of `int` in Python,
so Booleans pass this check. -/
def Value.isPyInt : Value → Bool
  | Value.int _ => true
  | Value.bool _ => true
  | _ => false

/-- The integer Python uses when a value passing `isinstance(-, int)`
enters arithmetic or `chr`: `True` is `1` and `False` is `0`.  The
catch-all is unreachable behind an `isPyInt` guard. -/
def Value.pyIntVal : Value → Int
  | Value.int n => n
  | Value.bool b => if b then 1 else 0
  | _ => 0

/-- Failures of the source: `SyntaxError` raised explicitly by the parser,
`ValueError` raised by the builtins `int()` and `chr()`, and an
`outOfFuel` marker that is an artifact of the fuel-indexed embedding of
the recursive functions - it is never produced when the supplied fuel
bounds the number of parsing steps, and no theorem below relies on it. -/
inductive PyError where
  | syntaxError (msg : String)
  | valueError (msg : String)
  | outOfFuel
  deriving DecidableEq, Repr

/-- Insertion into a Python dict: an existing key keeps its position and
gets the new value, a new key is appended (insertion order preserved). -/
def dictInsert (d : List (String × Value)) (key : String) (v : Value) :
    List (String × Value) :=
  match d with
  | [] => [(key, v)]
  | (k, w) :: rest =>
    if k = key then (k, v) :: rest else (k, w) :: dictInsert rest key v

/-- Lookup in a Python dict (`key in d` / `d[key]`). -/
def lookupDict (d : List (String × Value)) (key : String) : Option Value :=
  match d with
  | [] => none
  | (k, w) :: rest => if k = key then some w else lookupDict rest key

/-- Python `str.isspace` on the ASCII whitespace characters; the inputs of
interest contain no non-ASCII whitespace. -/
def pyIsSpace (c : Char) : Bool :=
  c = ' ' || c = '\t' || c = '\n' || c = '\r' ||
    c = Char.ofNat 11 || c = Char.ofNat 12

/-- Hexadecimal digit, as accepted by `int(-, 16)` and the lexer regex. -/
def isHexDigitChar (c : Char) : Bool :=
  c.isDigit || ('a' ≤ c && c ≤ 'f') || ('A' ≤ c && c ≤ 'F')

/-- Numeric value of a hexadecimal digit. -/
def hexVal (c : Char) : Nat :=
  if c.isDigit then c.toNat - 48
  else if 'a' ≤ c then c.toNat - 87
  else c.toNat - 55

/-- Value of a decimal digit string. -/
def decDigitsVal (cs : List Char) : Nat :=
  cs.foldl (fun acc c => 10 * acc + (c.toNat - 48)) 0

/-- Value of a hexadecimal digit string. -/
def hexDigitsVal (cs : List Char) : Nat :=
  cs.foldl (fun acc c => 16 * acc + hexVal c) 0

/-- Python `int(s)` (base 10): an optional sign followed by at least one
digit; anything else raises `ValueError` (`none` here).  Underscore
digit grouping and non-ASCII digits, which the builtin also accepts, are
not modelled - no input below uses them. -/
def pyIntDec (s : String) : Option Int :=
  match s.data with
  | [] => none
  | c :: cs =>
    if c = '-' then
      if !cs.isEmpty && cs.all Char.isDigit then some (-(decDigitsVal cs : Int)) else none
    else if c = '+' then
      if !cs.isEmpty && cs.all Char.isDigit then some ((decDigitsVal cs : Int)) else none
    else if (c :: cs).all Char.isDigit then some ((decDigitsVal (c :: cs) : Int)) else none

/-- Hexadecimal body for `int(-, 16)`: an optional `0x`/`0X` prefix
followed by at least one hex digit. -/
def hexBody (cs : List Char) : Option Nat :=
  let ds := match cs with
    | '0' :: x :: rest => if x = 'x' || x = 'X' then rest else cs
    | _ => cs
  if !ds.isEmpty && ds.all isHexDigitChar then some (hexDigitsVal ds) else none

/-- Python `int(s, 16)`: optional sign, optional `0x`/`0X` prefix, then at
least one hex digit; anything else raises `ValueError` (`none` here). -/
def pyIntHex (s : String) : Option Int :=
  match s.data with
  | '-' :: rest => (hexBody rest).map (fun n => -(n : Int))
  | '+' :: rest => (hexBody rest).map (fun n => (n : Int))
  | cs => (hexBody cs).map (fun n => (n : Int))

/-- Python `s.lower().startswith('0x')`. -/
def startsWith0x (s : String) : Bool :=
  match s.data with
  | c0 :: c1 :: _ => c0 = '0' && (c1 = 'x' || c1 = 'X')
  | _ => false

/-- Python `str.strip()` on a character list. -/
def stripChars (cs : List Char) : List Char :=
  ((cs.dropWhile pyIsSpace).reverse.dropWhile pyIsSpace).reverse

/-- Python `str.strip()`. -/
def pyStrip (s : String) : String := String.mk (stripChars s.data)

/-- Helper for `pySplit`: split on whitespace runs, dropping empty
fields; `cur` holds the current field reversed. -/
def splitWsAux : List Char → List Char → List (List Char)
  | [], cur => if cur.isEmpty then [] else [cur.reverse]
  | c :: rest, cur =>
    if pyIsSpace c then
      if cur.isEmpty then splitWsAux rest [] else cur.reverse :: splitWsAux rest []
    else splitWsAux rest (c :: cur)

/-- Python `str.split()` with no argument: split on whitespace runs and
drop empty fields. -/
def pySplit (s : String) : List String := (splitWsAux s.data []).map String.mk

/-- Python `s[1:-1]`. -/
def pyDropFirstLast (s : String) : String := String.mk (s.data.drop 1).dropLast

/-- Helper for `pyReplace`: fuel-indexed scan; the fuel is an upper bound
on the number of characters consumed and is always sufficient for
nonempty patterns. -/
def replaceAux : Nat → List Char → List Char → List Char → List Char
  | 0, s, _, _ => s
  | _ + 1, [], _, _ => []
  | k + 1, c :: rest, pat, rep =>
    if pat.isPrefixOf (c :: rest) then rep ++ replaceAux k ((c :: rest).drop pat.length) pat rep
    else c :: replaceAux k rest pat rep

/-- Python `s.replace(pat, rep)` for nonempty `pat`: leftmost,
non-overlapping, all occurrences. -/
def pyReplace (s pat rep : String) : String :=
  String.mk (replaceAux (s.data.length + 1) s.data pat.data rep.data)

/-- A single-quote character, kept out of string literals. -/
def squote : String := String.singleton (Char.ofNat 39)

/-- The string-token processing of `_parse_value`:
`token.value[1:-1].replace(backslash-dquote, dquote).replace(backslash-squote, squote)`. -/
def unescapeString (s : String) : String :=
  pyReplace (pyReplace (pyDropFirstLast s) ("\\\"") ("\""))
    (String.mk ['\\', Char.ofNat 39]) squote

/-- Argument resolution of `Parser._parse_expression` (lines 357-361 and
366-370 of the source): a name bound in the constant table resolves to its
bound value; otherwise the text is parsed with `int(-, 16)` when it starts
with `0x`/`0X` and with `int(-)` otherwise, and a failed literal parse is
the builtin `ValueError`. -/
def resolveArg (constants : List (String × Value)) (s : String) : Except PyError Value :=
  match lookupDict constants s with
  | some v => Except.ok v
  | none =>
    if startsWith0x s then
      match pyIntHex s with
      | some n => Except.ok (Value.int n)
      | none => Except.error (PyError.valueError s)
    else
      match pyIntDec s with
      | some n => Except.ok (Value.int n)
      | none => Except.error (PyError.valueError s)

/-- The `ops` table of `_parse_expression`: `+`, `-`, `*` and floor
division `//` with the division-by-zero guard; the catch-all branch is
reached only for `/`, the operator check having already passed. -/
def opApply (op : String) (a b : Int) : Int :=
  if op = ("+") then a + b
  else if op = ("-") then a - b
  else if op = ("*") then a * b
  else if b = 0 then 0 else Int.fdiv a b

/-- The interior fields of a bracket-expression token:
`expr_str[1:-1].strip().split()`. -/
def exprContent (e : String) : List String := pySplit (pyStrip (pyDropFirstLast e))

/-- `Parser._parse_expression` (lines 345-381), evaluating the raw text of
one bracket token against the constant table.  The token itself has
already been consumed by the caller. -/
def parseExpressionStr (constants : List (String × Value)) (exprStr : String) :
    Except PyError Value :=
  match exprContent exprStr with
  | [] => Except.error (PyError.syntaxError (("Некорректное выражение: ") ++ exprStr))
  | [_] => Except.error (PyError.syntaxError (("Некорректное выражение: ") ++ exprStr))
  | op :: a1 :: rest =>
    if op ≠ ("+") ∧ op ≠ ("-") ∧ op ≠ ("*") ∧ op ≠ ("/") then
      Except.error (PyError.syntaxError (("Неизвестная операция: ") ++ op))
    else
      match resolveArg constants (pyStrip a1) with
      | Except.error e => Except.error e
      | Except.ok arg1 =>
        match rest with
        | [] => Except.ok arg1
        | a2 :: _ =>
          match resolveArg constants (pyStrip a2) with
          | Except.error e => Except.error e
          | Except.ok arg2 =>
            if arg1.isPyInt && arg2.isPyInt then
              Except.ok (Value.int (opApply op arg1.pyIntVal arg2.pyIntVal))
            else
              Except.error (PyError.syntaxError
                (("Аргументы должны быть числами: ") ++ exprStr))

/-- Lexer state: the full text (a sequence of code points, as Python
indexes strings) together with the cursor `pos` and the `line`/`col`
counters of the `Lexer` class. -/
structure LexState where
  text : List Char
  pos : Nat
  line : Nat
  col : Nat
  deriving Repr

/-- Python `text[i]`, defaulting to NUL out of range (every use in the
source is guarded by a bounds check). -/
def charAt (t : List Char) (i : Nat) : Char := t.getD i (Char.ofNat 0)

/-- Python `text[a:b]`. -/
def listSlice (t : List Char) (a b : Nat) : List Char := (t.drop a).take (b - a)

/-- Loop of `Lexer._skip_line_comment`; the counter starts at
`text.length - pos`, which is exactly the iteration bound of the loop
(each iteration advances `pos` by one while `pos < len`). -/
def skipLineCommentAux : Nat → LexState → LexState
  | 0, st => st
  | k + 1, st =>
    if st.pos < st.text.length ∧ charAt st.text st.pos ≠ '\n' then
      skipLineCommentAux k { st with pos := st.pos + 1, col := st.col + 1 }
    else st

/-- `Lexer._skip_line_comment` (lines 89-95): consume through the newline
position (the newline itself is not consumed, but the line counter is
already bumped when one is in sight). -/
def skipLineComment (st : LexState) : LexState :=
  let st1 := skipLineCommentAux (st.text.length - st.pos) st
  if st1.pos < st1.text.length then { st1 with line := st1.line + 1, col := 1 } else st1

/-- Loop of `Lexer._skip_whitespace` (lines 97-104). -/
def skipWhitespaceAux : Nat → LexState → LexState
  | 0, st => st
  | k + 1, st =>
    if st.pos < st.text.length ∧ pyIsSpace (charAt st.text st.pos) then
      if charAt st.text st.pos = '\n' then
        skipWhitespaceAux k { st with pos := st.pos + 1, line := st.line + 1, col := 1 }
      else skipWhitespaceAux k { st with pos := st.pos + 1, col := st.col + 1 }
    else st

/-- `Lexer._skip_whitespace`. -/
def skipWhitespace (st : LexState) : LexState :=
  skipWhitespaceAux (st.text.length - st.pos) st

/-- Loop of `Lexer._skip_multiline_comment` (lines 109-119): scan while
`pos + 1 < len`, returning right after a closing marker. -/
def skipMLAux : Nat → LexState → LexState
  | 0, st => st
  | k + 1, st =>
    if st.pos + 1 < st.text.length then
      if charAt st.text st.pos = '-' ∧ charAt st.text (st.pos + 1) = '\x7d' then
        { st with pos := st.pos + 2, col := st.col + 2 }
      else if charAt st.text st.pos = '\n' then
        skipMLAux k { st with pos := st.pos + 1, line := st.line + 1, col := 1 }
      else skipMLAux k { st with pos := st.pos + 1, col := st.col + 1 }
    else st

/-- `Lexer._skip_multiline_comment` (lines 106-119): step over the opening
marker, then scan. -/
def skipMultilineComment (st : LexState) : LexState :=
  skipMLAux (st.text.length - st.pos) { st with pos := st.pos + 2, col := st.col + 2 }

/-- Bracket-matching loop of `Lexer._parse_expression` (lines 125-137):
find the index of the `]` that zeroes the bracket counter, `none` when the
scan reaches end of input first. -/
def findBracketEnd : Nat → List Char → Nat → Int → Option Nat
  | 0, _, _, _ => none
  | k + 1, t, e, cnt =>
    if e < t.length then
      if charAt t e = '[' then findBracketEnd k t (e + 1) (cnt + 1)
      else if charAt t e = ']' then
        if cnt - 1 = 0 then some e else findBracketEnd k t (e + 1) (cnt - 1)
      else findBracketEnd k t (e + 1) cnt
    else none

/-- `Lexer._parse_expression` (lines 121-146): on a matched `]`, split the
interior on whitespace; when at least two fields exist and the first is an
operator, the whole bracketed text becomes one `LBRACK` token. -/
def lexParseExpression (st : LexState) : Option (Token × LexState) :=
  match findBracketEnd (st.text.length - st.pos) st.text st.pos 0 with
  | none => none
  | some e =>
    match pySplit (pyStrip (String.mk (listSlice st.text (st.pos + 1) e))) with
    | op :: _ :: _ =>
      if op = ("+") ∨ op = ("-") ∨ op = ("*") ∨ op = ("/") then
        let value := String.mk (listSlice st.text st.pos (e + 1))
        some (⟨TokenType.LBRACK, value, st.line, st.col⟩,
          { st with pos := e + 1, col := st.col + value.length })
      else none
    | _ => none

/-- The ordered keyword table of `Lexer._match_keyword` (lines 186-198);
compound patterns precede their single-character prefixes. -/
def keywordPatterns : List (String × TokenType) :=
  [(("struct\x7b"), TokenType.STRUCT_START),
   (("(list"), TokenType.LIST_START),
   (("chr("), TokenType.CHR_START),
   ((":="), TokenType.DEFINE),
   ((";"), TokenType.SEMICOLON),
   (("="), TokenType.ASSIGN),
   ((","), TokenType.COMMA),
   (("\x7d"), TokenType.STRUCT_END),
   ((")"), TokenType.RPAREN),
   (("true"), TokenType.BOOL_TRUE),
   (("false"), TokenType.BOOL_FALSE)]

/-- Python `text.startswith(pat, i)`. -/
def listStartsWith (t : List Char) (i : Nat) (pat : List Char) : Bool :=
  pat.isPrefixOf (t.drop i)

/-- First character of the identifier regex `[_a-zA-Z][_a-zA-Z0-9]*`. -/
def isIdentStart (c : Char) : Bool := c = '_' || c.isAlpha

/-- Continuation characters of the identifier regex. -/
def isIdentCont (c : Char) : Bool := c = '_' || c.isAlpha || c.isDigit

/-- Pattern scan of `_match_keyword`, in table order. -/
def matchKeywordAux (t : List Char) (i : Nat) :
    List (String × TokenType) → Option (String × TokenType)
  | [] => none
  | (pat, tt) :: rest =>
    if listStartsWith t i pat.data then some (pat, tt) else matchKeywordAux t i rest

/-- `Lexer._match_keyword` (lines 185-215): the literal table first, then
the identifier regex. -/
def matchKeyword (st : LexState) : Option (Token × LexState) :=
  match matchKeywordAux st.text st.pos keywordPatterns with
  | some (pat, tt) =>
    some (⟨tt, pat, st.line, st.col⟩,
      { st with pos := st.pos + pat.length, col := st.col + pat.length })
  | none =>
    match st.text.drop st.pos with
    | [] => none
    | c :: rest =>
      if isIdentStart c then
        let ident := c :: rest.takeWhile isIdentCont
        some (⟨TokenType.NAME, String.mk ident, st.line, st.col⟩,
          { st with pos := st.pos + ident.length, col := st.col + ident.length })
      else none

/-- `Lexer._parse_number` (lines 148-157) with the regex
`0[xX][0-9a-fA-F]+|\d+` anchored at `pos`: the hex alternative needs at
least one hex digit after the prefix, otherwise the decimal alternative
may still match the leading digits. -/
def lexParseNumber (st : LexState) : Option (Token × LexState) :=
  match st.text.drop st.pos with
  | c0 :: c1 :: rest =>
    if c0 = '0' && (c1 = 'x' || c1 = 'X') && !(rest.takeWhile isHexDigitChar).isEmpty then
      let value := String.mk (c0 :: c1 :: rest.takeWhile isHexDigitChar)
      some (⟨TokenType.HEX, value, st.line, st.col⟩,
        { st with pos := st.pos + value.length, col := st.col + value.length })
    else if c0.isDigit then
      let value := String.mk ((c0 :: c1 :: rest).takeWhile Char.isDigit)
      some (⟨TokenType.NUMBER, value, st.line, st.col⟩,
        { st with pos := st.pos + value.length, col := st.col + value.length })
    else none
  | [c0] =>
    if c0.isDigit then
      some (⟨TokenType.NUMBER, String.mk [c0], st.line, st.col⟩,
        { st with pos := st.pos + 1, col := st.col + 1 })
    else none
  | [] => none

/-- Scan loop of `Lexer._parse_string` (lines 169-183): look for the next
matching quote not preceded by a backslash, advancing the cursor; on
failure the cursor is left at end of input (the source does not rewind
it). -/
def scanStringAux : Nat → Char → Nat → Nat → Nat → LexState → Option Token × LexState
  | 0, _, _, _, _, st => (none, st)
  | k + 1, quote, start, startLine, startCol, st =>
    if st.pos < st.text.length then
      if charAt st.text st.pos = quote ∧
          (st.pos = 0 ∨ charAt st.text (st.pos - 1) ≠ '\\') then
        (some ⟨TokenType.STRING, String.mk (listSlice st.text start (st.pos + 1)),
            startLine, startCol⟩,
          { st with pos := st.pos + 1, col := st.col + 1 })
      else if charAt st.text st.pos = '\n' then
        scanStringAux k quote start startLine startCol
          { st with pos := st.pos + 1, line := st.line + 1, col := 1 }
      else
        scanStringAux k quote start startLine startCol
          { st with pos := st.pos + 1, col := st.col + 1 }
    else (none, st)

/-- `Lexer._parse_string` (lines 159-183).  A non-quote character leaves
the state untouched; an unterminated string returns `none` with the
cursor already scanned to end of input. -/
def lexParseString (st : LexState) : Option Token × LexState :=
  let quote := charAt st.text st.pos
  if quote = Char.ofNat 39 ∨ quote = '"' then
    scanStringAux (st.text.length - st.pos) quote st.pos st.line st.col
      { st with pos := st.pos + 1, col := st.col + 1 }
  else (none, st)

/-- Loop body of `Lexer.next_token` (lines 52-87), fuel-indexed: comments
and whitespace are skipped, then bracket expressions, keywords, numbers
and strings are tried in order, and an unmatched character is skipped
silently.  The fuel counts loop iterations; each iteration that does not
return a token advances `pos` by at least one, so the
`text.length - pos + 1` supplied by `nextToken` is always sufficient. -/
def nextTokenAux : Nat → LexState → Token × LexState
  | 0, st => (⟨TokenType.EOF, (""), st.line, st.col⟩, st)
  | k + 1, st =>
    if st.pos < st.text.length then
      let c := charAt st.text st.pos
      if c = '#' then nextTokenAux k (skipLineComment st)
      else if pyIsSpace c then nextTokenAux k (skipWhitespace st)
      else if st.pos + 1 < st.text.length ∧ c = '\x7b' ∧
          charAt st.text (st.pos + 1) = '-' then
        nextTokenAux k (skipMultilineComment st)
      else
        match (if c = '[' then lexParseExpression st else none) with
        | some r => r
        | none =>
          match matchKeyword st with
          | some r => r
          | none =>
            match lexParseNumber st with
            | some r => r
            | none =>
              match lexParseString st with
              | (some tok, st1) => (tok, st1)
              | (none, st1) => nextTokenAux k { st1 with pos := st1.pos + 1, col := st1.col + 1 }
    else (⟨TokenType.EOF, (""), st.line, st.col⟩, st)

/-- `Lexer.next_token`. -/
def nextToken (st : LexState) : Token × LexState :=
  nextTokenAux (st.text.length - st.pos + 1) st

/-- Initial lexer state for a text, as `Lexer.__init__` sets it up. -/
def initLexState (text : String) : LexState := ⟨text.data, 0, 1, 1⟩

/-- The end-of-input sentinel the parser sees once the token stream is
exhausted; its position is abstracted as `0:0` (no claim concerns the
position report at end of input). -/
def eofTok : Token := ⟨TokenType.EOF, (""), 0, 0⟩

/-- The current token of the stream (`self.current_token`): the parser
consumes the lazily produced token sequence from the front. -/
def curTok (ts : List Token) : Token := ts.headD eofTok

/-- The message format of `Parser.eat` (lines 228-229). -/
def eatMsg (expected : TokenType) (actual : Token) : String :=
  toString actual.line ++ (":") ++ toString actual.col ++ (": Ожидался ") ++
    expected.valueStr ++ (", получен ") ++ actual.type.valueStr

/-- `Parser.eat` (lines 224-229): consume the current token when its kind
matches, raise a `SyntaxError` otherwise. -/
def eatF (tt : TokenType) (ts : List Token) : Except PyError (List Token) :=
  if (curTok ts).type = tt then Except.ok ts.tail
  else Except.error (PyError.syntaxError (eatMsg tt (curTok ts)))

/-- The `ValueError` message of the builtin `chr` on an out-of-range
argument. -/
def chrRangeMsg : String := "chr() arg not in range(0x110000)"

/-- Model of the builtin `chr`: defined for code points
`0 ≤ n < 0x110000`, raising `ValueError` otherwise.  Lean characters
exclude the surrogate code points `0xD800-0xDFFF`, which `Char.ofNat`
sends to NUL; no claim below exercises a surrogate argument. -/
def pyChr (n : Int) : Except PyError String :=
  if 0 ≤ n ∧ n < 1114112 then Except.ok (String.singleton (Char.ofNat n.toNat))
  else Except.error (PyError.valueError chrRangeMsg)

/-- The message format of the struct-body check at lines 326-327, which
quotes the expected `=` (unlike `Parser.eat`). -/
def structAssignMsg (actual : Token) : String :=
  toString actual.line ++ (":") ++ toString actual.col ++ (": Ожидался ") ++
    squote ++ ("=") ++ squote ++ (", получен ") ++ actual.type.valueStr

/-- The message format of the `_parse_value` fallback at line 301. -/
def unexpectedValueMsg (t : Token) : String :=
  toString t.line ++ (":") ++ toString t.col ++ (": Неожиданное значение: ") ++
    t.type.valueStr

mutual

/-- `Parser._parse_value` (lines 264-301), fuel-indexed: the fuel counts
nested parsing steps, and every recursive call strictly consumes tokens,
so any fuel past the token count is sufficient (`PyError.outOfFuel` is
then unreachable). -/
def parseValueF : Nat → List (String × Value) → List Token →
    Except PyError (Value × List Token)
  | 0, _, _ => Except.error PyError.outOfFuel
  | k + 1, constants, ts =>
    let token := curTok ts
    match token.type with
    | TokenType.NUMBER =>
      (match pyIntDec token.value with
       | some n => Except.ok (Value.int n, ts.tail)
       | none => Except.error (PyError.valueError token.value))
    | TokenType.HEX =>
      (match pyIntHex token.value with
       | some n => Except.ok (Value.int n, ts.tail)
       | none => Except.error (PyError.valueError token.value))
    | TokenType.STRING => Except.ok (Value.str (unescapeString token.value), ts.tail)
    | TokenType.BOOL_TRUE => Except.ok (Value.bool true, ts.tail)
    | TokenType.BOOL_FALSE => Except.ok (Value.bool false, ts.tail)
    | TokenType.NAME =>
      (match lookupDict constants token.value with
       | some v => Except.ok (v, ts.tail)
       | none => Except.ok (Value.str token.value, ts.tail))
    | TokenType.LIST_START => parseListF k constants [] ts.tail
    | TokenType.STRUCT_START => parseStructF k constants [] ts.tail
    | TokenType.CHR_START => parseChrF k constants ts.tail
    | TokenType.LBRACK =>
      (match parseExpressionStr constants token.value with
       | Except.ok v => Except.ok (v, ts.tail)
       | Except.error e => Except.error e)
    | _ => Except.error (PyError.syntaxError (unexpectedValueMsg token))

/-- `Parser._parse_list` (lines 303-311) after its `eat(LIST_START)`:
append values until the closing paren or end of input, eating one comma
after a value when present. -/
def parseListF : Nat → List (String × Value) → List Value → List Token →
    Except PyError (Value × List Token)
  | 0, _, _, _ => Except.error PyError.outOfFuel
  | k + 1, constants, acc, ts =>
    if (curTok ts).type ≠ TokenType.RPAREN ∧ (curTok ts).type ≠ TokenType.EOF then
      match parseValueF k constants ts with
      | Except.error e => Except.error e
      | Except.ok (v, ts1) =>
        let ts2 := if (curTok ts1).type = TokenType.COMMA then ts1.tail else ts1
        parseListF k constants (acc ++ [v]) ts2
    else
      match eatF TokenType.RPAREN ts with
      | Except.ok ts1 => Except.ok (Value.list acc, ts1)
      | Except.error e => Except.error e

/-- `Parser._parse_struct` (lines 313-337) after its `eat(STRUCT_START)`:
a non-`NAME` token where a field name is expected is skipped; a field
name not followed by `=` raises; the loop stops at `STRUCT_END` or `EOF`,
then `eat(STRUCT_END)`. -/
def parseStructF : Nat → List (String × Value) → List (String × Value) → List Token →
    Except PyError (Value × List Token)
  | 0, _, _, _ => Except.error PyError.outOfFuel
  | k + 1, constants, acc, ts =>
    if (curTok ts).type ≠ TokenType.EOF ∧ (curTok ts).type ≠ TokenType.STRUCT_END then
      if (curTok ts).type ≠ TokenType.NAME then parseStructF k constants acc ts.tail
      else
        let name := (curTok ts).value
        let ts1 := ts.tail
        if (curTok ts1).type ≠ TokenType.ASSIGN then
          Except.error (PyError.syntaxError (structAssignMsg (curTok ts1)))
        else
          match parseValueF k constants ts1.tail with
          | Except.error e => Except.error e
          | Except.ok (v, ts2) =>
            let ts3 := if (curTok ts2).type = TokenType.COMMA then ts2.tail else ts2
            parseStructF k constants (dictInsert acc name v) ts3
    else
      match eatF TokenType.STRUCT_END ts with
      | Except.ok ts1 => Except.ok (Value.struct acc, ts1)
      | Except.error e => Except.error e

/-- `Parser._parse_chr` (lines 339-343) after its `eat(CHR_START)`: one
value, a required close-paren, then `chr(arg) if isinstance(arg, int)
else` a question mark. -/
def parseChrF : Nat → List (String × Value) → List Token →
    Except PyError (Value × List Token)
  | 0, _, _ => Except.error PyError.outOfFuel
  | k + 1, constants, ts =>
    match parseValueF k constants ts with
    | Except.error e => Except.error e
    | Except.ok (v, ts1) =>
      match eatF TokenType.RPAREN ts1 with
      | Except.error e => Except.error e
      | Except.ok ts2 =>
        if v.isPyInt then
          match pyChr v.pyIntVal with
          | Except.ok s => Except.ok (Value.str s, ts2)
          | Except.error e => Except.error e
        else Except.ok (Value.str ("?"), ts2)

end

/-- `Parser.parse` (lines 231-262), fuel-indexed: the top-level statement
loop over the token stream, threading the constant table and the result
document. -/
def parseLoopF : Nat → List (String × Value) → List (String × Value) → List Token →
    Except PyError (List (String × Value))
  | 0, _, _, _ => Except.error PyError.outOfFuel
  | k + 1, constants, result, ts =>
    match (curTok ts).type with
    | TokenType.EOF => Except.ok result
    | TokenType.SEMICOLON => parseLoopF k constants result ts.tail
    | TokenType.NAME =>
      let name := (curTok ts).value
      let ts1 := ts.tail
      if (curTok ts1).type = TokenType.DEFINE then
        match parseValueF k constants ts1.tail with
        | Except.error e => Except.error e
        | Except.ok (v, ts2) =>
          let ts3 := if (curTok ts2).type = TokenType.SEMICOLON then ts2.tail else ts2
          parseLoopF k (dictInsert constants name v) (dictInsert result name v) ts3
      else if (curTok ts1).type = TokenType.ASSIGN then
        match parseValueF k constants ts1.tail with
        | Except.error e => Except.error e
        | Except.ok (v, ts2) =>
          let ts3 := if (curTok ts2).type = TokenType.SEMICOLON then ts2.tail else ts2
          parseLoopF k constants (dictInsert result name v) ts3
      else if (curTok ts1).type = TokenType.STRUCT_START then
        match parseStructF k constants [] ts1.tail with
        | Except.error e => Except.error e
        | Except.ok (v, ts2) => parseLoopF k constants (dictInsert result name v) ts2
      else parseLoopF k constants (dictInsert result name (Value.str name)) ts1
    | _ =>
      match parseValueF k constants ts with
      | Except.error e => Except.error e
      | Except.ok (v, ts1) => parseLoopF k constants (dictInsert result ("_value") v) ts1

/-- Shorthand constructors for tokens in concrete runs (positions `1:1`,
irrelevant to the properties below). -/
def nameTok (s : String) : Token := ⟨TokenType.NAME, s, 1, 1⟩

/-- A `NUMBER` token with the given literal text. -/
def numTok (s : String) : Token := ⟨TokenType.NUMBER, s, 1, 1⟩

/-- A `:=` token. -/
def defineTok : Token := ⟨TokenType.DEFINE, (":="), 1, 1⟩

/-- An `=` token. -/
def assignTok : Token := ⟨TokenType.ASSIGN, ("="), 1, 1⟩

/-- A `,` token. -/
def commaTok : Token := ⟨TokenType.COMMA, (","), 1, 1⟩

/-- A `;` token. -/
def semiTok : Token := ⟨TokenType.SEMICOLON, (";"), 1, 1⟩

/-- A `(list` token. -/
def listStartTok : Token := ⟨TokenType.LIST_START, ("(list"), 1, 1⟩

/-- A `)` token. -/
def rparenTok : Token := ⟨TokenType.RPAREN, (")"), 1, 1⟩

/-- A `struct` opening token. -/
def structStartTok : Token := ⟨TokenType.STRUCT_START, ("struct\x7b"), 1, 1⟩

/-- A struct closing token. -/
def structEndTok : Token := ⟨TokenType.STRUCT_END, ("\x7d"), 1, 1⟩

/-- A `chr(` token. -/
def chrStartTok : Token := ⟨TokenType.CHR_START, ("chr("), 1, 1⟩

/-- A bracket-expression token with the given raw text. -/
def lbrackTok (s : String) : Token := ⟨TokenType.LBRACK, s, 1, 1⟩

/-- The optional trailing-semicolon consumption after a `:=` or `=`
statement (lines 246-247 and 252-253 of the source). -/
def dropSemi (ts : List Token) : List Token :=
  if (curTok ts).type = TokenType.SEMICOLON then ts.tail else ts

/-- Bounds of `Int.fmod` for a negative modulus: the remainder of flooring
division has the sign of the divisor. -/
theorem fmod_bounds_of_neg (a b : Int) (hb : b < 0) :
    b < Int.fmod a b ∧ Int.fmod a b ≤ 0 := by
  obtain ⟨n, rfl⟩ : ∃ n : Nat, b = Int.negSucc n := by
    cases b with
    | ofNat m => rw [Int.ofNat_eq_natCast] at hb; omega
    | negSucc n => exact ⟨n, rfl⟩
  cases a with
  | ofNat m =>
    cases m with
    | zero =>
      have he : Int.fmod (Int.ofNat 0) (Int.negSucc n) = 0 := rfl
      rw [he, Int.negSucc_eq]
      omega
    | succ m =>
      have he : Int.fmod (Int.ofNat (m + 1)) (Int.negSucc n)
          = Int.subNatNat (m % (n + 1)) n := rfl
      have h1 : m % (n + 1) < n + 1 := Nat.mod_lt _ (Nat.succ_pos n)
      rw [he, Int.subNatNat_eq_coe, Int.negSucc_eq]
      omega
  | negSucc m =>
    have he : Int.fmod (Int.negSucc m) (Int.negSucc n)
        = -Int.ofNat ((m + 1) % (n + 1)) := rfl
    have h1 : (m + 1) % (n + 1) < n + 1 := Nat.mod_lt _ (Nat.succ_pos n)
    rw [he, Int.negSucc_eq, Int.ofNat_eq_natCast]
    omega

/-- Flooring integer division `Int.fdiv` (Python `//`) is the floor of the
exact rational quotient. -/
theorem fdiv_eq_floor (a b : Int) (hb : b ≠ 0) :
    Int.fdiv a b = ⌊(a : ℚ) / (b : ℚ)⌋ := by
  have hbq : (b : ℚ) ≠ 0 := Int.cast_ne_zero.mpr hb
  have key : ((Int.fmod a b : Int) : ℚ) + (b : ℚ) * ((Int.fdiv a b : Int) : ℚ) = (a : ℚ) := by
    exact_mod_cast Int.fmod_add_fdiv a b
  have hsplit : (a : ℚ) / b = ((Int.fdiv a b : Int) : ℚ) + ((Int.fmod a b : Int) : ℚ) / b := by
    field_simp
    linarith [key]
  have hfrac : 0 ≤ ((Int.fmod a b : Int) : ℚ) / b ∧ ((Int.fmod a b : Int) : ℚ) / b < 1 := by
    rcases lt_or_gt_of_ne hb with hneg | hpos
    · obtain ⟨hlo, hhi⟩ := fmod_bounds_of_neg a b hneg
      have hbq' : (b : ℚ) < 0 := by exact_mod_cast hneg
      have hloq : (b : ℚ) < ((Int.fmod a b : Int) : ℚ) := by exact_mod_cast hlo
      have hhiq : ((Int.fmod a b : Int) : ℚ) ≤ 0 := by exact_mod_cast hhi
      constructor
      · have hnn : 0 ≤ (-((Int.fmod a b : Int) : ℚ)) / (-(b : ℚ)) :=
          div_nonneg (by linarith) (by linarith)
        rwa [neg_div_neg_eq] at hnn
      · have hnum : 0 < ((Int.fmod a b : Int) : ℚ) - b := by linarith
        have : (((Int.fmod a b : Int) : ℚ) - b) / b < 0 := div_neg_of_pos_of_neg hnum hbq'
        have hsub : (((Int.fmod a b : Int) : ℚ) - b) / b
            = ((Int.fmod a b : Int) : ℚ) / b - 1 := by field_simp
        linarith [hsub ▸ this]
    · have hlo := Int.fmod_nonneg' a hpos
      have hhi := Int.fmod_lt_of_pos a hpos
      have hbq' : (0 : ℚ) < (b : ℚ) := by exact_mod_cast hpos
      have hloq : (0 : ℚ) ≤ ((Int.fmod a b : Int) : ℚ) := by exact_mod_cast hlo
      have hhiq : ((Int.fmod a b : Int) : ℚ) < (b : ℚ) := by exact_mod_cast hhi
      exact ⟨div_nonneg hloq (le_of_lt hbq'), (div_lt_one hbq').mpr hhiq⟩
  symm
  rw [Int.floor_eq_iff]
  constructor
  · rw [hsplit]; linarith [hfrac.1]
  · rw [hsplit]; linarith [hfrac.2]

/-- C1 (counterexample): with the constant table binding `x` to the text
value `hi` (as produced by the statement `x := "hi"`), the accepted
bracket token `[+ x]` evaluates to that text value, which is not an
Integer; the full statement run `x := "hi"` then `y := [+ x]` stores that
non-Integer under `y`. -/
theorem C1_counterexample :
    parseLoopF 9 [] []
      [nameTok ("x"), defineTok, ⟨TokenType.STRING, ("\"hi\""), 1, 1⟩,
       nameTok ("y"), defineTok, lbrackTok ("[+ x]")]
      = Except.ok [(("x"), Value.str ("hi")), (("y"), Value.str ("hi"))]
    ∧ parseExpressionStr [(("x"), Value.str ("hi"))] ("[+ x]")
      = Except.ok (Value.str ("hi"))
    ∧ ∀ n : Int, Value.str ("hi") ≠ Value.int n :=
  ⟨rfl, rfl, nofun⟩

/-- C1 (amended): a successfully evaluated bracket expression yields an
Integer whenever two operands are present; in the single-operand form the
resolved first argument is returned unchanged (the operator is ignored),
so the result is an Integer for literal arguments and for names bound to
Integers, but a name bound to a non-Integer value comes back as-is. -/
theorem C1_parse_expression_result (c : List (String × Value)) (e : String) (v : Value)
    (h : parseExpressionStr c e = Except.ok v) :
    (∃ op a1, exprContent e = [op, a1] ∧ resolveArg c (pyStrip a1) = Except.ok v)
    ∨ (∃ n : Int, v = Value.int n) := by
  unfold parseExpressionStr at h
  split at h
  · cases h
  · cases h
  rename_i op a1 rest heq
  split at h
  · cases h
  split at h
  · cases h
  rename_i arg1 hres1
  split at h
  · -- single-operand form: `rest` was matched as `[]`
    injection h with h1
    exact Or.inl ⟨op, a1, heq, by rw [hres1, h1]⟩
  · rename_i a2 rest2
    split at h
    · cases h
    rename_i arg2 hres2
    split at h
    · injection h with h1
      exact Or.inr ⟨opApply op arg1.pyIntVal arg2.pyIntVal, h1.symm⟩
    · cases h

/-- C1 (witness): the single-operand literal form `[+ 5]` instantiates the
amended statement. -/
theorem C1_witness :
    (∃ op a1, exprContent ("[+ 5]") = [op, a1]
      ∧ resolveArg [] (pyStrip a1) = Except.ok (Value.int 5))
    ∨ (∃ n : Int, Value.int 5 = Value.int n) :=
  C1_parse_expression_result [] ("[+ 5]") (Value.int 5) rfl

/-- C2: whenever a bracket expression has exactly an operator and two
argument fields and both arguments resolve to integers `a` and `b`, the
evaluation yields `a + b`, `a - b`, `a * b`, or for `/` the floor of the
exact quotient (division truncating toward negative infinity), except
that a zero divisor yields `0` with no error. -/
theorem C2_arithmetic (c : List (String × Value)) (e op s1 s2 : String) (a b : Int)
    (hc : exprContent e = [op, s1, s2])
    (h1 : resolveArg c (pyStrip s1) = Except.ok (Value.int a))
    (h2 : resolveArg c (pyStrip s2) = Except.ok (Value.int b)) :
    (op = ("+") → parseExpressionStr c e = Except.ok (Value.int (a + b)))
    ∧ (op = ("-") → parseExpressionStr c e = Except.ok (Value.int (a - b)))
    ∧ (op = ("*") → parseExpressionStr c e = Except.ok (Value.int (a * b)))
    ∧ (op = ("/") → parseExpressionStr c e
        = Except.ok (Value.int (if b = 0 then 0 else ⌊(a : ℚ) / (b : ℚ)⌋))) := by
  refine ⟨?_, ?_, ?_, ?_⟩ <;> intro hop <;> subst hop <;>
    unfold parseExpressionStr <;> rw [hc] <;>
    simp [h1, h2, opApply, Value.isPyInt, Value.pyIntVal]
  rcases eq_or_ne b 0 with hb | hb
  · simp [hb]
  · simp [hb, fdiv_eq_floor a b hb]

/-- C2 (witness): the division example `[/ 7 2]` instantiates the
statement; the floor of `7 / 2` is `3`. -/
theorem C2_witness :
    (("/") = ("+") → parseExpressionStr [] ("[/ 7 2]") = Except.ok (Value.int (7 + 2)))
    ∧ (("/") = ("-") → parseExpressionStr [] ("[/ 7 2]") = Except.ok (Value.int (7 - 2)))
    ∧ (("/") = ("*") → parseExpressionStr [] ("[/ 7 2]") = Except.ok (Value.int (7 * 2)))
    ∧ (("/") = ("/") → parseExpressionStr [] ("[/ 7 2]")
        = Except.ok (Value.int (if (2 : Int) = 0 then 0 else ⌊(7 : ℚ) / (2 : ℚ)⌋))) :=
  C2_arithmetic [] ("[/ 7 2]") ("/") ("7") ("2") 7 2 rfl rfl rfl

/-- C3 (counterexample): the two-operand expression `[+ ab 3]` (accepted
by the lexer) has a first argument that is neither a bound constant nor a
numeric literal; the evaluator fails with the builtin `ValueError` of
`int()`, not with the syntax error about numeric arguments. -/
theorem C3_counterexample :
    parseExpressionStr [] ("[+ ab 3]") = Except.error (PyError.valueError ("ab"))
    ∧ ∀ m, PyError.valueError ("ab") ≠ PyError.syntaxError m :=
  ⟨rfl, nofun⟩

/-- C3 (amended): each argument is resolved independently - constant
table first, else `0x`-prefixed hex literal, else decimal literal.  When
both arguments are present and both resolve, a value failing the
`isinstance(-, int)` check (which can only come from the constant table,
and which Booleans pass, `bool` being a subclass of `int`) triggers the
syntax error about numeric arguments; but an argument that is neither a
bound constant nor a parseable literal - whichever literal form applies,
hex for a `0x`/`0X` prefix and decimal otherwise - instead raises the
`ValueError` of `int()`. -/
theorem C3_numeric_check (c : List (String × Value)) (e op s1 s2 : String)
    (rest2 : List String) (v1 v2 : Value)
    (hc : exprContent e = op :: s1 :: s2 :: rest2)
    (hop : op = ("+") ∨ op = ("-") ∨ op = ("*") ∨ op = ("/"))
    (h1 : resolveArg c (pyStrip s1) = Except.ok v1)
    (h2 : resolveArg c (pyStrip s2) = Except.ok v2)
    (hni : v1.isPyInt = false ∨ v2.isPyInt = false) :
    parseExpressionStr c e
      = Except.error (PyError.syntaxError (("Аргументы должны быть числами: ") ++ e))
    ∧ ∀ s, lookupDict c s = none →
        (if startsWith0x s then pyIntHex s else pyIntDec s) = none →
        resolveArg c s = Except.error (PyError.valueError s) := by
  have hguard : ¬(op ≠ ("+") ∧ op ≠ ("-") ∧ op ≠ ("*") ∧ op ≠ ("/")) := by
    rcases hop with h | h | h | h <;> simp [h]
  constructor
  · have hfalse : (v1.isPyInt && v2.isPyInt) = false := by
      rcases hni with h | h <;> simp [h]
    unfold parseExpressionStr
    rw [hc]
    simp [hguard, h1, h2, hfalse]
  · intro s hl hp
    by_cases hx : startsWith0x s = true
    · rw [if_pos hx] at hp
      simp [resolveArg, hl, hx, hp]
    · have hx1 : startsWith0x s = false := by simpa using hx
      rw [if_neg hx] at hp
      simp [resolveArg, hl, hx1, hp]

/-- C3 (witness): with `x` bound to a text value, `[+ x 3]` raises the
numeric-arguments syntax error; and the unbound `0x`-prefixed
non-literal `0xg` resolves to the `ValueError` of `int(-, 16)`. -/
theorem C3_witness :
    parseExpressionStr [(("x"), Value.str ("s"))] ("[+ x 3]")
      = Except.error (PyError.syntaxError
          (("Аргументы должны быть числами: ") ++ ("[+ x 3]")))
    ∧ resolveArg [(("x"), Value.str ("s"))] ("0xg")
      = Except.error (PyError.valueError ("0xg")) :=
  ⟨(C3_numeric_check [(("x"), Value.str ("s"))] ("[+ x 3]") ("+") ("x") ("3") []
      (Value.str ("s")) (Value.int 3) rfl (Or.inl rfl) rfl rfl (Or.inl rfl)).1,
   (C3_numeric_check [(("x"), Value.str ("s"))] ("[+ x 3]") ("+") ("x") ("3") []
      (Value.str ("s")) (Value.int 3) rfl (Or.inl rfl) rfl rfl (Or.inl rfl)).2
     ("0xg") rfl rfl⟩

/-- One statement step of `Parser.parse` for `name := value` (lines
242-248): the parsed value is bound under the name in BOTH the constant
table and the document, and one optional trailing semicolon is
consumed. -/
theorem parseLoopF_define_step (k : Nat) (c d : List (String × Value))
    (t u : Token) (rest : List Token) (v : Value) (ts2 : List Token)
    (ht : t.type = TokenType.NAME) (hu : u.type = TokenType.DEFINE)
    (hv : parseValueF k c rest = Except.ok (v, ts2)) :
    parseLoopF (k + 1) c d (t :: u :: rest)
      = parseLoopF k (dictInsert c t.value v) (dictInsert d t.value v) (dropSemi ts2) := by
  simp [parseLoopF, curTok, ht, hu, hv, dropSemi]

/-- One statement step of `Parser.parse` for `name = value` (lines
249-254): the parsed value is bound in the document only, the constant
table passes through unchanged, and one optional trailing semicolon is
consumed. -/
theorem parseLoopF_assign_step (k : Nat) (c d : List (String × Value))
    (t u : Token) (rest : List Token) (v : Value) (ts2 : List Token)
    (ht : t.type = TokenType.NAME) (hu : u.type = TokenType.ASSIGN)
    (hv : parseValueF k c rest = Except.ok (v, ts2)) :
    parseLoopF (k + 1) c d (t :: u :: rest)
      = parseLoopF k c (dictInsert d t.value v) (dropSemi ts2) := by
  simp [parseLoopF, curTok, ht, hu, hv, dropSemi]

/-- Number-token case of `_parse_value` (lines 267-270). -/
theorem parseValueF_number (k : Nat) (c : List (String × Value))
    (t : Token) (ts : List Token) (n : Int)
    (ht : t.type = TokenType.NUMBER) (hn : pyIntDec t.value = some n) :
    parseValueF (k + 1) c (t :: ts) = Except.ok (Value.int n, ts) := by
  simp [parseValueF, curTok, ht, hn]

/-- Identifier case of `_parse_value` with a bound constant (lines
284-288): the bound value is substituted. -/
theorem parseValueF_name_bound (k : Nat) (c : List (String × Value))
    (t : Token) (ts : List Token) (v : Value)
    (ht : t.type = TokenType.NAME) (hl : lookupDict c t.value = some v) :
    parseValueF (k + 1) c (t :: ts) = Except.ok (v, ts) := by
  simp [parseValueF, curTok, ht, hl]

/-- Identifier case of `_parse_value` with no binding (lines 289-290):
the identifier becomes a text value equal to its own name. -/
theorem parseValueF_name_unbound (k : Nat) (c : List (String × Value))
    (t : Token) (ts : List Token)
    (ht : t.type = TokenType.NAME) (hl : lookupDict c t.value = none) :
    parseValueF (k + 1) c (t :: ts) = Except.ok (Value.str t.value, ts) := by
  simp [parseValueF, curTok, ht, hl]

/-- C4: in the statement run `x := s1; y = x; x := s2` the use of `x`
receives the value bound at the time of use, and the later redefinition
of `x` updates the document entry for `x` without touching the value
already substituted for `y`; moreover an identifier with no binding in
the constant table becomes a value equal to its own name. -/
theorem C4_constant_substitution (x y s1 s2 : String) (n1 n2 : Int)
    (hxy : x ≠ y) (h1 : pyIntDec s1 = some n1) (h2 : pyIntDec s2 = some n2) :
    parseLoopF 9 [] []
      [⟨TokenType.NAME, x, 1, 1⟩, defineTok, ⟨TokenType.NUMBER, s1, 1, 1⟩,
       ⟨TokenType.NAME, y, 1, 1⟩, assignTok, ⟨TokenType.NAME, x, 1, 1⟩,
       ⟨TokenType.NAME, x, 1, 1⟩, defineTok, ⟨TokenType.NUMBER, s2, 1, 1⟩]
      = Except.ok [(x, Value.int n2), (y, Value.int n1)]
    ∧ ∀ (k : Nat) (c : List (String × Value)) (t : Token) (ts : List Token),
        t.type = TokenType.NAME → lookupDict c t.value = none →
        parseValueF (k + 1) c (t :: ts) = Except.ok (Value.str t.value, ts) := by
  refine ⟨?_, fun k c t ts ht hl => parseValueF_name_unbound k c t ts ht hl⟩
  have hv1 : parseValueF 8 []
      (⟨TokenType.NUMBER, s1, 1, 1⟩ ::
        [⟨TokenType.NAME, y, 1, 1⟩, assignTok, ⟨TokenType.NAME, x, 1, 1⟩,
         ⟨TokenType.NAME, x, 1, 1⟩, defineTok, ⟨TokenType.NUMBER, s2, 1, 1⟩])
      = Except.ok (Value.int n1,
        [⟨TokenType.NAME, y, 1, 1⟩, assignTok, ⟨TokenType.NAME, x, 1, 1⟩,
         ⟨TokenType.NAME, x, 1, 1⟩, defineTok, ⟨TokenType.NUMBER, s2, 1, 1⟩]) :=
    parseValueF_number 7 [] _ _ n1 rfl h1
  rw [parseLoopF_define_step 8 [] [] _ _ _ _ _ rfl rfl hv1]
  show parseLoopF 8 [(x, Value.int n1)] [(x, Value.int n1)]
      [⟨TokenType.NAME, y, 1, 1⟩, assignTok, ⟨TokenType.NAME, x, 1, 1⟩,
       ⟨TokenType.NAME, x, 1, 1⟩, defineTok, ⟨TokenType.NUMBER, s2, 1, 1⟩]
      = Except.ok [(x, Value.int n2), (y, Value.int n1)]
  have hlx : lookupDict [(x, Value.int n1)] x = some (Value.int n1) := by
    simp [lookupDict]
  have hv2 : parseValueF 7 [(x, Value.int n1)]
      (⟨TokenType.NAME, x, 1, 1⟩ ::
        [⟨TokenType.NAME, x, 1, 1⟩, defineTok, ⟨TokenType.NUMBER, s2, 1, 1⟩])
      = Except.ok (Value.int n1,
        [⟨TokenType.NAME, x, 1, 1⟩, defineTok, ⟨TokenType.NUMBER, s2, 1, 1⟩]) :=
    parseValueF_name_bound 6 _ _ _ _ rfl hlx
  rw [parseLoopF_assign_step 7 [(x, Value.int n1)] [(x, Value.int n1)] _ _ _ _ _ rfl rfl hv2]
  rw [show dictInsert [(x, Value.int n1)] y (Value.int n1)
      = [(x, Value.int n1), (y, Value.int n1)] from by simp [dictInsert, hxy]]
  show parseLoopF 7 [(x, Value.int n1)] [(x, Value.int n1), (y, Value.int n1)]
      [⟨TokenType.NAME, x, 1, 1⟩, defineTok, ⟨TokenType.NUMBER, s2, 1, 1⟩]
      = Except.ok [(x, Value.int n2), (y, Value.int n1)]
  have hv3 : parseValueF 6 [(x, Value.int n1)] (⟨TokenType.NUMBER, s2, 1, 1⟩ :: [])
      = Except.ok (Value.int n2, []) :=
    parseValueF_number 5 _ _ _ n2 rfl h2
  rw [parseLoopF_define_step 6 [(x, Value.int n1)] [(x, Value.int n1), (y, Value.int n1)]
    _ _ _ _ _ rfl rfl hv3]
  rw [show dictInsert [(x, Value.int n1)] x (Value.int n2) = [(x, Value.int n2)] from by
    simp [dictInsert]]
  rw [show dictInsert [(x, Value.int n1), (y, Value.int n1)] x (Value.int n2)
      = [(x, Value.int n2), (y, Value.int n1)] from by simp [dictInsert]]
  rfl

/-- C4 (witness): the run with `x`, `y`, `1` and `2`. -/
theorem C4_witness :
    parseLoopF 9 [] []
      [⟨TokenType.NAME, ("x"), 1, 1⟩, defineTok, ⟨TokenType.NUMBER, ("1"), 1, 1⟩,
       ⟨TokenType.NAME, ("y"), 1, 1⟩, assignTok, ⟨TokenType.NAME, ("x"), 1, 1⟩,
       ⟨TokenType.NAME, ("x"), 1, 1⟩, defineTok, ⟨TokenType.NUMBER, ("2"), 1, 1⟩]
      = Except.ok [(("x"), Value.int 2), (("y"), Value.int 1)]
    ∧ ∀ (k : Nat) (c : List (String × Value)) (t : Token) (ts : List Token),
        t.type = TokenType.NAME → lookupDict c t.value = none →
        parseValueF (k + 1) c (t :: ts) = Except.ok (Value.str t.value, ts) :=
  C4_constant_substitution ("x") ("y") ("1") ("2") 1 2 (by decide) rfl rfl

/-- C7: a top-level `name := value` statement binds the name in both the
constant table and the document, while `name = value` binds it in the
document only and leaves the constant table unchanged; in both forms one
optional trailing semicolon is consumed (`dropSemi`). -/
theorem C7_define_vs_assign (k : Nat) (c d : List (String × Value))
    (t u1 u2 : Token) (rest : List Token) (v : Value) (ts2 : List Token)
    (ht : t.type = TokenType.NAME)
    (h1 : u1.type = TokenType.DEFINE) (h2 : u2.type = TokenType.ASSIGN)
    (hv : parseValueF k c rest = Except.ok (v, ts2)) :
    parseLoopF (k + 1) c d (t :: u1 :: rest)
      = parseLoopF k (dictInsert c t.value v) (dictInsert d t.value v) (dropSemi ts2)
    ∧ parseLoopF (k + 1) c d (t :: u2 :: rest)
      = parseLoopF k c (dictInsert d t.value v) (dropSemi ts2) :=
  ⟨parseLoopF_define_step k c d t u1 rest v ts2 ht h1 hv,
   parseLoopF_assign_step k c d t u2 rest v ts2 ht h2 hv⟩

/-- C7 (witness): one `a := 5` and one `a = 5` statement step. -/
theorem C7_witness :
    parseLoopF 2 [] [] [nameTok ("a"), defineTok, numTok ("5")]
      = parseLoopF 1 (dictInsert [] ("a") (Value.int 5))
          (dictInsert [] ("a") (Value.int 5)) (dropSemi [])
    ∧ parseLoopF 2 [] [] [nameTok ("a"), assignTok, numTok ("5")]
      = parseLoopF 1 [] (dictInsert [] ("a") (Value.int 5)) (dropSemi []) :=
  C7_define_vs_assign 1 [] [] (nameTok ("a")) defineTok assignTok [numTok ("5")]
    (Value.int 5) [] rfl rfl rfl rfl

/-- C8: inside a struct body, a token that is not an identifier where a
field name is expected (and does not terminate the body) is skipped
without error; a field name whose following token is not `=` - including
the case where the input ends right after the field name - raises a
syntax error; and reaching end of input before the closing brace raises a
syntax error. -/
theorem C8_struct_recovery (k : Nat) (c acc : List (String × Value)) :
    (∀ (t : Token) (ts : List Token),
        t.type ≠ TokenType.NAME → t.type ≠ TokenType.STRUCT_END →
        t.type ≠ TokenType.EOF →
        parseStructF (k + 1) c acc (t :: ts) = parseStructF k c acc ts)
    ∧ (∀ (t u : Token) (ts : List Token),
        t.type = TokenType.NAME → u.type ≠ TokenType.ASSIGN →
        parseStructF (k + 1) c acc (t :: u :: ts)
          = Except.error (PyError.syntaxError (structAssignMsg u)))
    ∧ (∀ t : Token, t.type = TokenType.NAME →
        ∃ m, parseStructF (k + 1) c acc [t] = Except.error (PyError.syntaxError m))
    ∧ ∃ m, parseStructF (k + 1) c acc [] = Except.error (PyError.syntaxError m) := by
  refine ⟨fun t ts hn hs he => ?_, fun t u ts hn ha => ?_,
    fun t hn => ⟨structAssignMsg eofTok, ?_⟩,
    ⟨eatMsg TokenType.STRUCT_END eofTok, ?_⟩⟩
  · simp [parseStructF, curTok, hn, hs, he]
  · simp [parseStructF, curTok, hn, ha]
  · simp [parseStructF, curTok, hn, eofTok]
  · simp [parseStructF, curTok, eatF, eofTok]

/-- C8 (witness): a stray number token inside a struct body is skipped; a
field name followed by a comma raises the `=`-expected error; and an
unclosed struct body raises at end of input. -/
theorem C8_witness :
    parseStructF 3 [] [] [numTok ("7"), structEndTok] = parseStructF 2 [] [] [structEndTok]
    ∧ parseStructF 3 [] [] [nameTok ("f"), commaTok]
        = Except.error (PyError.syntaxError (structAssignMsg commaTok))
    ∧ (∃ m, parseStructF 3 [] [] [nameTok ("f")] = Except.error (PyError.syntaxError m))
    ∧ ∃ m, parseStructF 3 [] [] [] = Except.error (PyError.syntaxError m) :=
  ⟨(C8_struct_recovery 2 [] []).1 (numTok ("7")) [structEndTok]
      (by decide) (by decide) (by decide),
   (C8_struct_recovery 2 [] []).2.1 (nameTok ("f")) commaTok [] rfl (by decide),
   (C8_struct_recovery 2 [] []).2.2.1 (nameTok ("f")) rfl,
   (C8_struct_recovery 2 [] []).2.2.2⟩

/-- C9 (counterexample): `chr(1114112)` - a form the parser accepts with
its inner value and close-paren - raises the `ValueError` of the builtin
`chr`, contradicting the claim that no error is raised for any integer
argument. -/
theorem C9_counterexample :
    parseValueF 9 [] [chrStartTok, numTok ("1114112"), rparenTok]
      = Except.error (PyError.valueError chrRangeMsg)
    ∧ ∀ r : Value × List Token,
        (Except.error (PyError.valueError chrRangeMsg) :
          Except PyError (Value × List Token)) ≠ Except.ok r :=
  ⟨rfl, nofun⟩

/-- C9 (amended): for a `chr(` form whose inner value parses and is
followed by the close-paren: an Integer inside the range of Unicode code
points (`0 ≤ n < 0x110000`) yields the single-character text with that
code point; an Integer outside that range raises the `ValueError` of the
builtin `chr`; a Boolean passes the `isinstance(-, int)` check (`bool`
subclasses `int`) and yields the character of code point 1 or 0; and any
other non-Integer yields the text `?` without error. -/
theorem C9_chr_behaviour (k : Nat) (c : List (String × Value))
    (ts1 ts2 : List Token) (v : Value)
    (hv : parseValueF k c ts1 = Except.ok (v, ts2))
    (hr : (curTok ts2).type = TokenType.RPAREN) :
    (∀ t : Token, t.type = TokenType.CHR_START →
       parseValueF (k + 2) c (t :: ts1) = parseChrF (k + 1) c ts1)
    ∧ (∀ n : Int, v = Value.int n → 0 ≤ n → n < 1114112 →
       parseChrF (k + 1) c ts1
         = Except.ok (Value.str (String.singleton (Char.ofNat n.toNat)), ts2.tail))
    ∧ (∀ n : Int, v = Value.int n → (n < 0 ∨ 1114112 ≤ n) →
       parseChrF (k + 1) c ts1 = Except.error (PyError.valueError chrRangeMsg))
    ∧ (∀ b : Bool, v = Value.bool b →
       parseChrF (k + 1) c ts1
         = Except.ok (Value.str (String.singleton (Char.ofNat (if b then 1 else 0))),
             ts2.tail))
    ∧ (v.isPyInt = false →
       parseChrF (k + 1) c ts1 = Except.ok (Value.str ("?"), ts2.tail)) := by
  refine ⟨fun t ht => ?_, fun n hvn h0 h1 => ?_, fun n hvn hout => ?_,
    fun b hvb => ?_, fun hni => ?_⟩
  · simp [parseValueF, curTok, ht]
  · subst hvn
    simp [parseChrF, hv, eatF, hr, pyChr, Value.isPyInt, Value.pyIntVal, h0, h1]
  · subst hvn
    have hno : ¬(0 ≤ n ∧ n < 1114112) := by omega
    simp [parseChrF, hv, eatF, hr, pyChr, Value.isPyInt, Value.pyIntVal, hno]
  · subst hvb
    rcases b with _ | _ <;>
      simp [parseChrF, hv, eatF, hr, pyChr, Value.isPyInt, Value.pyIntVal]
  · simp [parseChrF, hv, eatF, hr, hni]

/-- C9 (witness): `chr(65)` produces the single-character text `A`. -/
theorem C9_witness :
    parseChrF 2 [] [numTok ("65"), rparenTok]
      = Except.ok (Value.str (String.singleton (Char.ofNat (Int.toNat 65))), []) :=
  (C9_chr_behaviour 1 [] [numTok ("65"), rparenTok] [rparenTok]
    (Value.int 65) rfl rfl).2.1 65 rfl (by decide) (by decide)

/-- C10: inside a list literal the comma separator is optional: whenever
the loop parses one more element, the element is appended at the end of
the accumulated list and exactly one following comma - when present - is
consumed before the next iteration; consequently `(list 1 2 3)` and
`(list 1,2,3)` produce the same three-element list. -/
theorem C10_list_commas_optional :
    (∀ (k : Nat) (c : List (String × Value)) (acc : List Value)
        (ts ts1 : List Token) (v : Value),
        (curTok ts).type ≠ TokenType.RPAREN → (curTok ts).type ≠ TokenType.EOF →
        parseValueF k c ts = Except.ok (v, ts1) →
        parseListF (k + 1) c acc ts
          = parseListF k c (acc ++ [v])
              (if (curTok ts1).type = TokenType.COMMA then ts1.tail else ts1))
    ∧ parseValueF 9 [] [listStartTok, numTok ("1"), numTok ("2"), numTok ("3"), rparenTok]
        = Except.ok (Value.list [Value.int 1, Value.int 2, Value.int 3], [])
    ∧ parseValueF 9 [] [listStartTok, numTok ("1"), commaTok, numTok ("2"), commaTok,
        numTok ("3"), rparenTok]
        = Except.ok (Value.list [Value.int 1, Value.int 2, Value.int 3], []) := by
  refine ⟨fun k c acc ts ts1 v hr he hv => ?_, rfl, rfl⟩
  simp [parseListF, hr, he, hv]

/-- C10 (witness): one loop step of the list parser on `1 )`. -/
theorem C10_witness :
    parseListF 2 [] [] [numTok ("1"), rparenTok]
      = parseListF 1 [] ([] ++ [Value.int 1])
          (if (curTok [rparenTok]).type = TokenType.COMMA then
            List.tail [rparenTok] else [rparenTok]) :=
  C10_list_commas_optional.1 1 [] [] [numTok ("1"), rparenTok] [rparenTok]
    (Value.int 1) (by decide) (by decide) rfl

/-- Dropping at an in-range index exposes the character at that index. -/
theorem drop_charAt_cons (t : List Char) (i : Nat) (h : i < t.length) :
    t.drop i = charAt t i :: t.drop (i + 1) := by
  have h1 : charAt t i = t[i] := List.getD_eq_getElem t (Char.ofNat 0) h
  rw [List.drop_eq_getElem_cons h, h1]

/-- A quote character matches no keyword pattern and no identifier, so
`_match_keyword` yields nothing at a quote. -/
theorem matchKeyword_quote (st : LexState) (q : Char)
    (hq : q = Char.ofNat 39 ∨ q = '"')
    (hcur : charAt st.text st.pos = q) (hpos : st.pos < st.text.length) :
    matchKeyword st = none := by
  have hdrop : st.text.drop st.pos = q :: st.text.drop (st.pos + 1) := by
    rw [drop_charAt_cons st.text st.pos hpos, hcur]
  rcases hq with hq | hq <;> subst hq <;>
    simp [matchKeyword, matchKeywordAux, keywordPatterns, listStartsWith, hdrop,
      List.isPrefixOf, isIdentStart]

/-- A quote character starts no numeric literal, so `_parse_number`
yields nothing at a quote. -/
theorem lexParseNumber_quote (st : LexState) (q : Char)
    (hq : q = Char.ofNat 39 ∨ q = '"')
    (hcur : charAt st.text st.pos = q) (hpos : st.pos < st.text.length) :
    lexParseNumber st = none := by
  have hdrop : st.text.drop st.pos = q :: st.text.drop (st.pos + 1) := by
    rw [drop_charAt_cons st.text st.pos hpos, hcur]
  rcases hq with hq | hq <;> subst hq <;>
    rcases hrest : st.text.drop (st.pos + 1) with _ | ⟨c1, rest⟩ <;>
    rw [hrest] at hdrop <;>
    simp [lexParseNumber, hdrop, Char.isDigit]

/-- The string-scan loop of `_parse_string` on input with no unescaped
closing quote at or after the cursor: it returns no token and leaves the
cursor at end of input (the fuel bound covers the remaining distance). -/
theorem scanStringAux_no_close (f : Nat) (q : Char) (start sl sc : Nat) (st : LexState)
    (hinv : ∀ j, st.pos ≤ j → j < st.text.length → charAt st.text j = q →
        j ≠ 0 ∧ charAt st.text (j - 1) = '\\')
    (hf : st.text.length ≤ st.pos + f) :
    ∃ st1, scanStringAux f q start sl sc st = (none, st1)
      ∧ st1.pos = max st.pos st.text.length ∧ st1.text = st.text := by
  induction f generalizing st with
  | zero =>
    refine ⟨st, rfl, ?_, rfl⟩
    omega
  | succ f ih =>
    by_cases hp : st.pos < st.text.length
    · have hnq : ¬(charAt st.text st.pos = q ∧
          (st.pos = 0 ∨ charAt st.text (st.pos - 1) ≠ '\\')) := by
        rintro ⟨h1, h2⟩
        obtain ⟨hne, hbs⟩ := hinv st.pos (le_refl _) hp h1
        rcases h2 with h2 | h2
        · exact hne h2
        · exact h2 hbs
      by_cases hnl : charAt st.text st.pos = '\n'
      · obtain ⟨st1, he, hpos1, htext1⟩ :=
          ih { st with pos := st.pos + 1, line := st.line + 1, col := 1 }
            (fun j hj hjl hjq => hinv j (by
              have hj1 : st.pos + 1 ≤ j := hj
              omega) hjl hjq)
            (by show st.text.length ≤ st.pos + 1 + f; omega)
        refine ⟨st1, ?_, ?_, htext1⟩
        · simp only [scanStringAux]
          rw [if_pos hp, if_neg hnq, if_pos hnl]
          exact he
        · rw [hpos1]
          show max (st.pos + 1) st.text.length = max st.pos st.text.length
          omega
      · obtain ⟨st1, he, hpos1, htext1⟩ :=
          ih { st with pos := st.pos + 1, col := st.col + 1 }
            (fun j hj hjl hjq => hinv j (by
              have hj1 : st.pos + 1 ≤ j := hj
              omega) hjl hjq)
            (by show st.text.length ≤ st.pos + 1 + f; omega)
        refine ⟨st1, ?_, ?_, htext1⟩
        · simp only [scanStringAux]
          rw [if_pos hp, if_neg hnq, if_neg hnl]
          exact he
        · rw [hpos1]
          show max (st.pos + 1) st.text.length = max st.pos st.text.length
          omega
    · refine ⟨st, ?_, ?_, rfl⟩
      · simp only [scanStringAux]
        rw [if_neg hp]
      · omega

/-- `_parse_string` on an unterminated string: no token, and the cursor
is left at end of input (the source does not restore the position on
failure). -/
theorem lexParseString_unterminated (st : LexState) (q : Char)
    (hq : q = Char.ofNat 39 ∨ q = '"')
    (hcur : charAt st.text st.pos = q) (hpos : st.pos < st.text.length)
    (hno : ∀ j, st.pos < j → j < st.text.length → charAt st.text j = q →
        charAt st.text (j - 1) = '\\') :
    ∃ st1, lexParseString st = (none, st1)
      ∧ st1.pos = st.text.length ∧ st1.text = st.text := by
  obtain ⟨st1, he, hp1, ht1⟩ :=
    scanStringAux_no_close (st.text.length - st.pos) q st.pos st.line st.col
      { st with pos := st.pos + 1, col := st.col + 1 }
      (fun j hj hjl hjq => by
        have hj1 : st.pos + 1 ≤ j := hj
        exact ⟨by omega, hno j (by omega) hjl hjq⟩)
      (by show st.text.length ≤ st.pos + 1 + (st.text.length - st.pos); omega)
  refine ⟨st1, ?_, ?_, ht1⟩
  · unfold lexParseString
    rw [hcur, if_pos hq]
    exact he
  · rw [hp1]
    show max (st.pos + 1) st.text.length = st.text.length
    omega

/-- C5 (counterexample): on the input consisting of an unterminated
double-quoted string followed by further text, the very next token is
already the end-of-input sentinel - the cursor has been swallowed to the
end (position 5 on a 4-character input), so the text after the opening
quote is never tokenized, contradicting the claimed single-character
fallback resume. -/
theorem C5_counterexample :
    (nextToken (initLexState ("\"a b"))).1.type = TokenType.EOF
    ∧ (nextToken (initLexState ("\"a b"))).2.pos = 5
    ∧ TokenType.EOF ≠ TokenType.NAME :=
  ⟨rfl, rfl, nofun⟩

/-- C5 (amended): for every lexer state positioned at a quote character
whose string is never terminated by a matching unescaped quote before end
of input, no string token is produced and the failed scan leaves the
cursor at end of input; the single-character fallback skip then moves it
one further, so `next_token` returns the end-of-input sentinel and the
text following the opening quote is never tokenized. -/
theorem C5_unterminated_string (st : LexState) (q : Char)
    (hq : q = Char.ofNat 39 ∨ q = '"')
    (hcur : charAt st.text st.pos = q) (hpos : st.pos < st.text.length)
    (hno : ∀ j, st.pos < j → j < st.text.length → charAt st.text j = q →
        charAt st.text (j - 1) = '\\') :
    (nextToken st).1.type = TokenType.EOF
    ∧ (nextToken st).2.pos = st.text.length + 1 := by
  obtain ⟨st1, hps, hp1, ht1⟩ := lexParseString_unterminated st q hq hcur hpos hno
  have hkw : matchKeyword st = none := matchKeyword_quote st q hq hcur hpos
  have hnum : lexParseNumber st = none := lexParseNumber_quote st q hq hcur hpos
  have hq1 : ¬charAt st.text st.pos = '#' := by
    rw [hcur]; rcases hq with h | h <;> subst h <;> decide
  have hq2 : ¬(pyIsSpace (charAt st.text st.pos) = true) := by
    rw [hcur]; rcases hq with h | h <;> subst h <;> decide
  have hq3 : ¬(st.pos + 1 < st.text.length ∧ charAt st.text st.pos = '\x7b'
      ∧ charAt st.text (st.pos + 1) = '-') := by
    rintro ⟨-, h2, -⟩
    rw [hcur] at h2
    rcases hq with h | h <;> subst h <;> exact absurd h2 (by decide)
  have hq4 : ¬charAt st.text st.pos = '[' := by
    rw [hcur]; rcases hq with h | h <;> subst h <;> decide
  obtain ⟨k, hk⟩ : ∃ k, st.text.length - st.pos + 1 = k + 1 + 1 :=
    ⟨st.text.length - st.pos - 1, by omega⟩
  have hstep : nextToken st
      = nextTokenAux (k + 1) { st1 with pos := st1.pos + 1, col := st1.col + 1 } := by
    unfold nextToken
    rw [hk]
    simp only [nextTokenAux]
    rw [if_pos hpos, if_neg hq1, if_neg hq2, if_neg hq3, if_neg hq4]
    rw [hkw, hnum, hps]
  have hfinal : nextTokenAux (k + 1) { st1 with pos := st1.pos + 1, col := st1.col + 1 }
      = (⟨TokenType.EOF, (""), st1.line, st1.col + 1⟩,
         { st1 with pos := st1.pos + 1, col := st1.col + 1 }) := by
    simp only [nextTokenAux]
    rw [if_neg]
    simp only [ht1]
    omega
  rw [hstep, hfinal]
  refine ⟨rfl, ?_⟩
  simp [hp1]

/-- C5 (witness): the concrete unterminated input of the counterexample
satisfies the hypotheses of the amended statement. -/
theorem C5_witness :
    (nextToken ⟨("\"a b").data, 0, 1, 1⟩).1.type = TokenType.EOF
    ∧ (nextToken ⟨("\"a b").data, 0, 1, 1⟩).2.pos = ("\"a b").data.length + 1 :=
  C5_unterminated_string ⟨("\"a b").data, 0, 1, 1⟩ '"' (Or.inr rfl) rfl (by decide)
    (by
      intro j h1 h2 h3
      exfalso
      have hlen : (("\"a b").data).length = 4 := rfl
      rw [hlen] at h2
      have h1a : 0 < j := h1
      have hj : j = 1 ∨ j = 2 ∨ j = 3 := by omega
      rcases hj with hj | hj | hj <;> subst hj <;> exact absurd h3 (by decide))

/-- The scan loop of `_skip_multiline_comment` when no closing marker
occurs at or after the cursor: it stops one character short of the end of
input (or where it started, when already past that point). -/
theorem skipMLAux_no_close (f : Nat) (st : LexState)
    (hno : ∀ j, st.pos ≤ j → j + 1 < st.text.length →
        ¬(charAt st.text j = '-' ∧ charAt st.text (j + 1) = '\x7d'))
    (hf : st.text.length ≤ st.pos + f + 1) :
    (skipMLAux f st).pos = max st.pos (st.text.length - 1)
      ∧ (skipMLAux f st).text = st.text := by
  induction f generalizing st with
  | zero =>
    constructor
    · simp only [skipMLAux]
      omega
    · rfl
  | succ f ih =>
    by_cases hp : st.pos + 1 < st.text.length
    · have hnm : ¬(charAt st.text st.pos = '-' ∧ charAt st.text (st.pos + 1) = '\x7d') :=
        hno st.pos (le_refl _) hp
      by_cases hnl : charAt st.text st.pos = '\n'
      · obtain ⟨hpos1, htext1⟩ :=
          ih { st with pos := st.pos + 1, line := st.line + 1, col := 1 }
            (fun j hj hjl => hno j (by
              have hj1 : st.pos + 1 ≤ j := hj
              omega) hjl)
            (by show st.text.length ≤ st.pos + 1 + f + 1; omega)
        constructor
        · simp only [skipMLAux]
          rw [if_pos hp, if_neg hnm, if_pos hnl]
          rw [hpos1]
          show max (st.pos + 1) (st.text.length - 1) = max st.pos (st.text.length - 1)
          omega
        · simp only [skipMLAux]
          rw [if_pos hp, if_neg hnm, if_pos hnl]
          exact htext1
      · obtain ⟨hpos1, htext1⟩ :=
          ih { st with pos := st.pos + 1, col := st.col + 1 }
            (fun j hj hjl => hno j (by
              have hj1 : st.pos + 1 ≤ j := hj
              omega) hjl)
            (by show st.text.length ≤ st.pos + 1 + f + 1; omega)
        constructor
        · simp only [skipMLAux]
          rw [if_pos hp, if_neg hnm, if_neg hnl]
          rw [hpos1]
          show max (st.pos + 1) (st.text.length - 1) = max st.pos (st.text.length - 1)
          omega
        · simp only [skipMLAux]
          rw [if_pos hp, if_neg hnm, if_neg hnl]
          exact htext1
    · constructor
      · simp only [skipMLAux]
        rw [if_neg hp]
        omega
      · simp only [skipMLAux]
        rw [if_neg hp]

/-- C6 (counterexample): on the three-character input consisting of the
comment opener followed by `x`, with no closing marker, the next call to
`next_token` returns a `NAME` token `x` - a token produced from a
character of the unterminated comment - not the end-of-input
sentinel. -/
theorem C6_counterexample :
    (nextToken (initLexState ("\x7b-x"))).1 = ⟨TokenType.NAME, ("x"), 1, 3⟩
    ∧ TokenType.NAME ≠ TokenType.EOF :=
  ⟨rfl, nofun⟩

/-- C6 (amended): an unterminated block comment raises no error, but the
comment skip stops one character before end of input (its loop requires
two remaining characters), leaving the final character of the input to be
re-examined: when that character forms a token - as in the `x` of the
counterexample - the lexer still produces it. -/
theorem C6_unterminated_comment (st : LexState)
    (hno : ∀ j, st.pos + 2 ≤ j → j + 1 < st.text.length →
        ¬(charAt st.text j = '-' ∧ charAt st.text (j + 1) = '\x7d')) :
    (skipMultilineComment st).pos = max (st.pos + 2) (st.text.length - 1)
    ∧ (nextToken (initLexState ("\x7b-x"))).1 = ⟨TokenType.NAME, ("x"), 1, 3⟩ := by
  refine ⟨?_, rfl⟩
  unfold skipMultilineComment
  obtain ⟨hpos1, -⟩ :=
    skipMLAux_no_close (st.text.length - st.pos)
      { st with pos := st.pos + 2, col := st.col + 2 }
      (fun j hj hjl => hno j (by
        have hj1 : st.pos + 2 ≤ j := hj
        omega) hjl)
      (by show st.text.length ≤ st.pos + 2 + (st.text.length - st.pos) + 1; omega)
  rw [hpos1]

/-- C6 (witness): a concrete four-character unterminated comment stops
the scan at position 3 = max 2 3. -/
theorem C6_witness :
    (skipMultilineComment ⟨("\x7b-ab").data, 0, 1, 1⟩).pos
      = max (0 + 2) (("\x7b-ab").data.length - 1)
    ∧ (nextToken (initLexState ("\x7b-x"))).1 = ⟨TokenType.NAME, ("x"), 1, 3⟩ :=
  C6_unterminated_comment ⟨("\x7b-ab").data, 0, 1, 1⟩
    (by
      intro j h1 h2
      have hlen : (("\x7b-ab").data).length = 4 := rfl
      rw [hlen] at h2
      have h1a : 2 ≤ j := h1
      have hj : j = 2 := by omega
      subst hj
      decide)

end Converter
